import Mathlib

/- Verification of the reporting pipeline of the classwise-calibration
   experiments: result-record filtering, display ordering of calibration
   variants, summary aggregation, cross-validation fold splitting, and the
   output-file layout, embedded from the experiment and combination
   notebooks.  Components whose implementation lives in the src.utils
   module (absent here) are modelled from the specification and marked as
   such in their doc comments. -/

namespace CalibExp

/-- One row of the tidy results table: one record per
(model, dataset, calibration method, reduction-method variant, metric, fold),
as produced by the evaluation step and written to results.csv. -/
structure ResultRecord where
  model : String
  dataset : String
  calibrationMethod : String
  reductionMethod : String
  metric : String
  fold : Nat
  value : ℚ
deriving DecidableEq

/-- Lowercase a string character by character, as str.lower acts on the
ASCII variant names used in the results tables. -/
def lowerChars (s : String) : List Char := s.data.map Char.toLower

/-- Boolean test that the first character list is an initial segment of the
second. -/
def listStartsWith : List Char → List Char → Bool
  | [], _ => true
  | _ :: _, [] => false
  | p :: ps, c :: cs => p == c && listStartsWith ps cs

/-- Boolean substring test on character lists, as pandas str.contains with a
pattern free of regex metacharacters. -/
def listContainsSub (pat : List Char) : List Char → Bool
  | [] => pat.isEmpty
  | c :: cs => listStartsWith pat (c :: cs) || listContainsSub pat cs

/-- Embedding of the test
results_df["Reduction Method"].str.lower().str.contains("weighted")
applied to a single Reduction Method cell. -/
def mentionsWeighted (s : String) : Bool :=
  listContainsSub "weighted".data (lowerChars s)

/-- Embedding of the first filter of the combination notebook: the
results_df.query call keeping only the rows whose Metric differs from both
condition and weak_condition. -/
def dropDiagnostics (l : List ResultRecord) : List ResultRecord :=
  l.filter fun r => r.metric != "condition" && r.metric != "weak_condition"

/-- Embedding of the second filter of the combination notebook: keep the rows
whose Reduction Method does not contain the substring weighted in any case. -/
def dropWeighted (l : List ResultRecord) : List ResultRecord :=
  l.filter fun r => !(mentionsWeighted r.reductionMethod)

/-- The combination notebook applies the diagnostic filter and then the
weighted filter to the concatenated results table. -/
def filterResults (l : List ResultRecord) : List ResultRecord :=
  dropWeighted (dropDiagnostics l)

/-- Comparison of display names by length, the key function of
sorted(reduction_methods_order[1:], key=len). -/
def byLen (a b : String) : Prop := a.length ≤ b.length

instance : DecidableRel byLen :=
  fun a b => inferInstanceAs (Decidable (a.length ≤ b.length))

instance : IsTotal String byLen := ⟨fun a b => Nat.le_total a.length b.length⟩

instance : IsTrans String byLen := ⟨fun _ _ _ h1 h2 => Nat.le_trans h1 h2⟩

/-- Helper for uniqueFirst: drop the values already seen, keeping first
occurrences in order. -/
def uniqueFirstAux : List String → List String → List String
  | _, [] => []
  | seen, a :: l =>
      if a ∈ seen then uniqueFirstAux seen l
      else a :: uniqueFirstAux (a :: seen) l

/-- Embedding of pandas Series.unique: distinct values in order of first
appearance. -/
def uniqueFirst (l : List String) : List String := uniqueFirstAux [] l

/-- Embedding of the ordering policy of the notebooks: the first unique
variant is pinned in front and the remaining variants are sorted by the
length of their display name with a stable sort. -/
def reduction_methods_order (variants : List String) : List String :=
  match variants with
  | [] => []
  | first :: rest => first :: List.insertionSort byLen rest

/-- The display ordering as computed from a results table: unique values of
the Reduction Method column in row order, then the pin-first length-sort
policy. -/
def displayOrder (l : List ResultRecord) : List String :=
  reduction_methods_order (uniqueFirst (l.map fun r => r.reductionMethod))

/-- Values of one (model, dataset, metric, variant) group taken from the
table in row order: the per-fold metric values actually present. -/
def valuesFor (l : List ResultRecord) (model dataset metric variant : String) :
    List ℚ :=
  (l.filter fun r =>
      r.model == model && r.dataset == dataset && r.metric == metric &&
        r.reductionMethod == variant).map fun r => r.value

/-- Arithmetic mean of a list of rational values. -/
def meanQ (xs : List ℚ) : ℚ := xs.sum / (xs.length : ℚ)

/-- Population variance of a list of rational values. -/
def varQ (xs : List ℚ) : ℚ :=
  ((xs.map fun x => (x - meanQ xs) ^ 2).sum) / (xs.length : ℚ)

/-- Modelled from the spec: the across-fold aggregation inside
create_summary_table_with_absolute_values_and_stddev, whose implementation
lives in src.utils and is absent from the sources here.  For one
(model, dataset, metric, variant) group it returns the mean together with
the variance over exactly the folds present in the table, and signals an
explicit error when the group has no available fold.  The square root of
the variance is left out: it is not rational, and it plays no role in
which folds contribute. -/
def aggGroup (l : List ResultRecord) (model dataset metric variant : String) :
    Except String (ℚ × ℚ) :=
  let xs := valuesFor l model dataset metric variant
  if xs.isEmpty then
    Except.error "aggregation over an empty group: no folds available"
  else Except.ok (meanQ xs, varQ xs)

/-- Across-fold mean of the designated baseline variant of a
(model, dataset, metric) group. -/
def baselineMean (l : List ResultRecord) (model dataset metric bl : String) :
    ℚ :=
  meanQ (valuesFor l model dataset metric bl)

/-- Modelled from the spec: the relative-change cell that
create_summary_table_with_relative_change_and_stddev, whose implementation
lives in src.utils and is absent from the sources here, records for a
non-baseline variant: the percentage change of the variant mean relative
to the across-fold mean of the designated baseline variant of the same
(model, dataset, metric) group. -/
def relativeChange (l : List ResultRecord)
    (model dataset metric bl variant : String) : ℚ :=
  (meanQ (valuesFor l model dataset metric variant) -
      baselineMean l model dataset metric bl) /
    baselineMean l model dataset metric bl * 100

/-- Reconstruction of an absolute mean from a relative-change cell and the
recorded baseline mean. -/
def reconstructAbsolute (rel bm : ℚ) : ℚ := rel / 100 * bm + bm

/-- Modelled from the spec: the across-fold aggregation inside
create_summary_table_with_relative_change_and_stddev, whose implementation
lives in src.utils and is absent from the sources here.  For one
(model, dataset, metric) group it aggregates the folds actually present
for the variant and for the designated baseline variant, and signals an
explicit error instead of fabricating a value when either group has zero
available folds; otherwise it returns the relative-change cell of the
variant together with the variance of the variant values over the present
folds. -/
def aggGroupRelative (l : List ResultRecord)
    (model dataset metric bl variant : String) : Except String (ℚ × ℚ) :=
  let xs := valuesFor l model dataset metric variant
  let bs := valuesFor l model dataset metric bl
  if xs.isEmpty then
    Except.error "aggregation over an empty group: no folds available"
  else if bs.isEmpty then
    Except.error
      "aggregation over an empty baseline group: no folds available"
  else
    Except.ok (relativeChange l model dataset metric bl variant, varQ xs)

/-- Modelled from the spec: the fold split of perform_default_evaluation,
whose implementation lives in src.utils and is absent from the sources
here.  The N sample indices are laid out into F contiguous folds in the
standard K-fold fashion: the first N mod F folds receive one extra index.
The function returns the fold of index i. -/
def foldOf (N F i : Nat) : Nat :=
  let q := N / F
  let r := N % F
  if i < (q + 1) * r then i / (q + 1) else r + (i - (q + 1) * r) / q

/-- Held-out group of fold f: the indices assigned to fold f. -/
def heldOut (N F f : Nat) : List Nat :=
  (List.range N).filter fun i => foldOf N F i == f

/-- Fitting set of fold f: the indices not assigned to fold f. -/
def fittingSet (N F f : Nat) : List Nat :=
  (List.range N).filter fun i => foldOf N F i != f

/-- Modelled from the spec: set_random_seed resets the process-wide RNG
state to the given seed, discarding whatever state was there before; its
implementation lives in src.utils and is absent from the sources here. -/
def set_random_seed (seed : Nat) (_g : Nat) : Nat := seed

/-- Linear congruential step on 64 bits, modelling the PRNG from which the
seeded fold shuffle draws. -/
def lcgNext (g : Nat) : Nat :=
  (6364136223846793005 * g + 1442695040888963407) % 2 ^ 64

/-- Modelled from the spec: the seed-derived permutation of sample indices
underlying the fold assignment, a deterministic function of the RNG
state. -/
def seededPerm (g N i : Nat) : Nat := (i + lcgNext g) % N

/-- Fold of index i under the seeded shuffle. -/
def seededFoldOf (g N F i : Nat) : Nat := foldOf N F (seededPerm g N i)

/-- A calibration-method variant of the method registry, reduced to what
the determinism claim observes: a display name, the metric label, and the
pure per-fold computation of the metric value from the held-out
confidences and labels. -/
structure VariantSpec where
  name : String
  metric : String
  metricOf : List (List ℚ) → List Nat → ℚ

/-- Modelled from the spec: one run of the cross-validated evaluator,
whose implementation lives in src.utils and is absent from the sources
here.  The incoming global RNG state g0 is first reset by
set_random_seed, the fold assignment is derived from the reset state, and
one Result Record is emitted per (variant, fold) with the metric of the
variant evaluated on the held-out slice.  The final RNG state is returned with the
records. -/
def runEvaluation (g0 seed : Nat) (model dataset : String)
    (conf : List (List ℚ)) (labels : List Nat) (F : Nat)
    (registry : List VariantSpec) : List ResultRecord × Nat :=
  let g := set_random_seed seed g0
  let N := labels.length
  let recs := (List.range F).flatMap fun f =>
    registry.map fun v =>
      let idxs := (List.range N).filter fun i => seededFoldOf g N F i == f
      { model := model
        dataset := dataset
        calibrationMethod := v.name
        reductionMethod := v.name
        metric := v.metric
        fold := f
        value := v.metricOf (idxs.map fun i => conf.getD i [])
          (idxs.map fun i => labels.getD i 0) }
  (recs, lcgNext g)

/-- Fold assignment of one run of the evaluator from global RNG state g0
with the given seed. -/
def runFoldAssignment (g0 seed N F : Nat) : Nat → Nat :=
  fun i => seededFoldOf (set_random_seed seed g0) N F i

/-- Embedding of the save-then-filter-then-plot tail of every experiment
notebook: the first component is the table written to results.csv, the
second the frame that the plotting calls receive, results_df being
reassigned to the diagnostic-filtered frame between the write and the
plots. -/
def notebookOutputs (l : List ResultRecord) :
    List ResultRecord × List ResultRecord :=
  (l, dropDiagnostics l)

/-- Name and field separator of one csv write. -/
structure CsvSpec where
  name : String
  sep : Char
deriving DecidableEq

/-- Embedding of results_df.to_csv(output_file, sep=";", index=False), the
raw-results write of every experiment notebook. -/
def notebookResultsCsv : CsvSpec :=
  { name := "results.csv", sep := ';' }

/-- Separator with which the combination notebook reads every results.csv
found under the output directory: pd.read_csv(result_file, sep=";"). -/
def combinedReadSep : Char := ';'

/-- Default pandas to_csv field separator; the four summary writes of the
combination notebook pass no sep argument. -/
def defaultCsvSep : Char := ','

/-- Embedding of the four summary writes of the combination notebook,
pairing each output file with the slice of the filtered results table that
its summary function receives. -/
def combineOutputs (l : List ResultRecord) :
    List (CsvSpec × List ResultRecord) :=
  let fl := filterResults l
  [ ({ name := "ece_results_summary_absolute.csv", sep := defaultCsvSep },
      fl.filter fun r => r.metric == "ECE"),
    ({ name := "ece_results_summary_relative.csv", sep := defaultCsvSep },
      fl.filter fun r => r.metric == "ECE"),
    ({ name := "cwece_results_summary_absolute.csv", sep := defaultCsvSep },
      fl.filter fun r => r.metric == "cwECE"),
    ({ name := "cwece_results_summary_relative.csv", sep := defaultCsvSep },
      fl.filter fun r => r.metric == "cwECE") ]

/-- The file writes of the random forest synthetic notebook after
evaluation, in program order: the raw-results write and the three plot
calls, each path paired with a tag of the data slice rendered into it. -/
def rfNotebookWrites : List (String × String) :=
  [ ("results.csv", "raw results"),
    ("evaluation_ECE_rf_balanced.eps", "Synthetic Balanced"),
    ("evaluation_ECE_rf_balanced.eps", "Synthetic Imbalanced"),
    ("evaluation_ECE_rf_temperature_scaling.eps", "TemperatureScaling") ]

/-- Final content of the output directory after a sequence of writes:
later writes to the same path overwrite earlier ones. -/
def applyWrites (writes : List (String × String)) : String → Option String :=
  writes.foldl (fun fs w => fun q => if q = w.1 then some w.2 else fs q)
    (fun _ => none)

/-- A minimal record with the given reduction-method name, used to exhibit
the order sensitivity of the pinned-first policy. -/
def simpleRec (red : String) : ResultRecord :=
  { model := "M", dataset := "D", calibrationMethod := "C",
    reductionMethod := red, metric := "ECE", fold := 0, value := 0 }

/-- A record of the given variant, metric, fold and value in a fixed
(model, dataset) slice, used by the witnesses of the aggregation
theorems. -/
def foldRec (red metric : String) (fold : Nat) (v : ℚ) : ResultRecord :=
  { model := "M", dataset := "D", calibrationMethod := "C",
    reductionMethod := red, metric := metric, fold := fold, value := v }

/-- Concrete table for the aggregation witness: the baseline variant has
folds 0 and 1 present, the Reduced variant has folds 0 and 2 present with
fold 1 missing. -/
def aggWitnessTable : List ResultRecord :=
  [foldRec "Uncalibrated" "ECE" 0 1, foldRec "Uncalibrated" "ECE" 1 3,
    foldRec "Reduced" "ECE" 0 2, foldRec "Reduced" "ECE" 2 4]

/-- Records of a third variant, matching neither the Reduced group nor the
baseline group of the aggregation witness. -/
def aggWitnessExtra : List ResultRecord := [foldRec "ClassWise" "ECE" 0 5]

/-- The contiguous fold layout sends every index below N to a fold below F. -/
theorem foldOf_lt (N F i : Nat) (hF : 0 < F) (hi : i < N) : foldOf N F i < F := by
  have hrF : N % F < F := Nat.mod_lt _ hF
  have hN : F * (N / F) + N % F = N := Nat.div_add_mod N F
  unfold foldOf
  by_cases h : i < (N / F + 1) * (N % F)
  · rw [if_pos h]
    have h2 : i / (N / F + 1) < N % F := by
      refine (Nat.div_lt_iff_lt_mul (Nat.succ_pos _)).2 ?_
      rw [Nat.mul_comm]
      exact h
    exact Nat.lt_trans h2 hrF
  · rw [if_neg h]
    have hge : (N / F + 1) * (N % F) ≤ i := Nat.le_of_not_lt h
    rcases Nat.eq_zero_or_pos (N / F) with hq0 | hqpos
    · exfalso
      rw [hq0] at hN hge
      simp only [Nat.mul_zero, Nat.zero_add, Nat.zero_add, Nat.one_mul] at hN hge
      omega
    · have key : i - (N / F + 1) * (N % F) < (F - N % F) * (N / F) := by
        have h1 : (F - N % F) * (N / F) = F * (N / F) - (N % F) * (N / F) :=
          Nat.sub_mul _ _ _
        have h2 : (N % F) * (N / F) ≤ F * (N / F) :=
          Nat.mul_le_mul_right _ (Nat.le_of_lt hrF)
        have h3 : (N / F + 1) * (N % F) = (N / F) * (N % F) + N % F := by ring
        have h4 : (N / F) * (N % F) = (N % F) * (N / F) := Nat.mul_comm _ _
        omega
      have h5 : (i - (N / F + 1) * (N % F)) / (N / F) < F - N % F :=
        (Nat.div_lt_iff_lt_mul hqpos).2 key
      omega

/-- C5: for every fold count F of at least 2 and every sample count N, the
held-out groups of the fold split are pairwise disjoint, every sample index
below N lies in exactly one held-out group of a fold below F, and the
fitting set of every fold consists exactly of the indices not held out in
that fold. -/
theorem fold_split_partition (F N : Nat) (hF : 2 ≤ F) :
    (∀ f g i, f ≠ g → i ∈ heldOut N F f → i ∉ heldOut N F g) ∧
    (∀ i, i < N → ∃! f, f < F ∧ i ∈ heldOut N F f) ∧
    (∀ f i, i ∈ fittingSet N F f ↔ i < N ∧ i ∉ heldOut N F f) := by
  have hF0 : 0 < F := Nat.lt_of_lt_of_le (by omega) hF
  refine ⟨?_, ?_, ?_⟩
  · intro f g i hfg hf hg
    simp only [heldOut, List.mem_filter, List.mem_range, beq_iff_eq] at hf hg
    exact hfg (hf.2 ▸ hg.2.symm ▸ rfl)
  · intro i hi
    refine ⟨foldOf N F i, ⟨foldOf_lt N F i hF0 hi, ?_⟩, ?_⟩
    · simp [heldOut, List.mem_filter, List.mem_range, hi]
    · intro g hg
      have := hg.2
      simp only [heldOut, List.mem_filter, List.mem_range, beq_iff_eq] at this
      exact this.2.symm
  · intro f i
    simp [fittingSet, heldOut, List.mem_filter, List.mem_range,
      bne_iff_ne, beq_iff_eq]
    tauto

/-- Witness for fold_split_partition: the statement instantiated at 3 folds
over 7 samples. -/
theorem fold_split_partition_witness :
    2 ≤ 3 ∧
    ((∀ f g i, f ≠ g → i ∈ heldOut 7 3 f → i ∉ heldOut 7 3 g) ∧
      (∀ i, i < 7 → ∃! f, f < 3 ∧ i ∈ heldOut 7 3 f) ∧
      (∀ f i, i ∈ fittingSet 7 3 f ↔ i < 7 ∧ i ∉ heldOut 7 3 f)) :=
  ⟨by decide, fold_split_partition 3 7 (by decide)⟩

/-- Inserting a name into a list leaves the sublist of names of any fixed
length unchanged except that the inserted name, when it has that length,
lands in front: the ordered insertion never passes a name of length at
least its own. -/
theorem filter_orderedInsert_byLen (a : String) (l : List String) (n : Nat) :
    (List.orderedInsert byLen a l).filter (fun s => s.length == n) =
      if a.length = n then a :: l.filter (fun s => s.length == n)
      else l.filter (fun s => s.length == n) := by
  induction l with
  | nil =>
      by_cases h : a.length = n <;>
        simp [List.orderedInsert, List.filter_cons, h]
  | cons b t ih =>
      simp only [List.orderedInsert]
      by_cases hab : byLen a b
      · rw [if_pos hab]
        by_cases h : a.length = n <;>
          simp [List.filter_cons, h]
      · rw [if_neg hab]
        have hblt : b.length < a.length := Nat.lt_of_not_le hab
        by_cases h : a.length = n
        · have hbn : ¬ b.length = n := by omega
          simp [List.filter_cons, ih, h, hbn]
        · by_cases hb : b.length = n <;>
            simp [List.filter_cons, ih, h, hb]

/-- Stability of the length sort: the sublist of names of any fixed length
is unchanged by the sort. -/
theorem filter_insertionSort_byLen (l : List String) (n : Nat) :
    (List.insertionSort byLen l).filter (fun s => s.length == n) =
      l.filter (fun s => s.length == n) := by
  induction l with
  | nil => rfl
  | cons a t ih =>
      simp only [List.insertionSort]
      rw [filter_orderedInsert_byLen]
      by_cases h : a.length = n <;>
        simp [List.filter_cons, ih, h]

/-- C2: the display ordering pins the first variant in first position and
orders the remaining variants by ascending display-name length; the sort
is stable in the sense that variants of equal length keep their original
relative order; and on the list from the ordering contract it produces
exactly the stated output. -/
theorem display_ordering_spec (a : String) (rest : List String) :
    (reduction_methods_order (a :: rest)).head? = some a ∧
    List.Sorted byLen (reduction_methods_order (a :: rest)).tail ∧
    (reduction_methods_order (a :: rest)).tail.Perm rest ∧
    (∀ n, (reduction_methods_order (a :: rest)).tail.filter
        (fun s => s.length == n) = rest.filter (fun s => s.length == n)) ∧
    reduction_methods_order
        ["Baseline", "ReducedX", "ClassWiseReducedLongName", "CW"] =
      ["Baseline", "CW", "ReducedX", "ClassWiseReducedLongName"] := by
  refine ⟨rfl, ?_, ?_, ?_, by decide⟩
  · exact List.sorted_insertionSort byLen rest
  · exact List.perm_insertionSort byLen rest
  · intro n
    exact filter_insertionSort_byLen rest n

/-- C9: the variant pinned first by the display ordering is the Reduction
Method value of the first row of the table, with no validation against a
baseline name; two tables holding the same set of variants in different
row orders can pin different variants first. -/
theorem pinned_first_unvalidated (r0 : ResultRecord)
    (rest : List ResultRecord) :
    (displayOrder (r0 :: rest)).head? = some r0.reductionMethod ∧
    ((([simpleRec "Uncalibrated", simpleRec "Reduced"] :
          List ResultRecord).map fun r => r.reductionMethod).toFinset =
      (([simpleRec "Reduced", simpleRec "Uncalibrated"] :
          List ResultRecord).map fun r => r.reductionMethod).toFinset) ∧
    (displayOrder [simpleRec "Uncalibrated", simpleRec "Reduced"]).head? ≠
      (displayOrder [simpleRec "Reduced", simpleRec "Uncalibrated"]).head? := by
  refine ⟨?_, by decide, by decide⟩
  simp [displayOrder, uniqueFirst, uniqueFirstAux, reduction_methods_order]

/-- C1: the relative-change cell of a non-baseline variant is the
percentage change of its across-fold mean against the baseline mean of its
(model, dataset, metric) group, and reconstructing the absolute mean from
that cell together with the recorded baseline mean recovers the variant
mean exactly. -/
theorem relative_change_round_trip (l : List ResultRecord)
    (model dataset metric bl variant : String)
    (h : baselineMean l model dataset metric bl ≠ 0) :
    relativeChange l model dataset metric bl variant =
      (meanQ (valuesFor l model dataset metric variant) -
          baselineMean l model dataset metric bl) /
        baselineMean l model dataset metric bl * 100 ∧
    reconstructAbsolute (relativeChange l model dataset metric bl variant)
        (baselineMean l model dataset metric bl) =
      meanQ (valuesFor l model dataset metric variant) := by
  refine ⟨rfl, ?_⟩
  unfold reconstructAbsolute relativeChange
  field_simp
  ring

/-- Witness for relative_change_round_trip: a two-variant table whose
baseline mean is 1. -/
theorem relative_change_round_trip_witness :
    baselineMean [foldRec "Uncalibrated" "ECE" 0 1,
        foldRec "Reduced" "ECE" 0 3] "M" "D" "ECE" "Uncalibrated" ≠ 0 ∧
    (relativeChange [foldRec "Uncalibrated" "ECE" 0 1,
          foldRec "Reduced" "ECE" 0 3] "M" "D" "ECE" "Uncalibrated"
          "Reduced" =
        (meanQ (valuesFor [foldRec "Uncalibrated" "ECE" 0 1,
              foldRec "Reduced" "ECE" 0 3] "M" "D" "ECE" "Reduced") -
            baselineMean [foldRec "Uncalibrated" "ECE" 0 1,
              foldRec "Reduced" "ECE" 0 3] "M" "D" "ECE" "Uncalibrated") /
          baselineMean [foldRec "Uncalibrated" "ECE" 0 1,
            foldRec "Reduced" "ECE" 0 3] "M" "D" "ECE" "Uncalibrated" *
          100 ∧
      reconstructAbsolute
          (relativeChange [foldRec "Uncalibrated" "ECE" 0 1,
            foldRec "Reduced" "ECE" 0 3] "M" "D" "ECE" "Uncalibrated"
            "Reduced")
          (baselineMean [foldRec "Uncalibrated" "ECE" 0 1,
            foldRec "Reduced" "ECE" 0 3] "M" "D" "ECE" "Uncalibrated") =
        meanQ (valuesFor [foldRec "Uncalibrated" "ECE" 0 1,
          foldRec "Reduced" "ECE" 0 3] "M" "D" "ECE" "Reduced")) :=
  ⟨by simp [baselineMean, meanQ, valuesFor, foldRec],
    relative_change_round_trip _ "M" "D" "ECE" "Uncalibrated" "Reduced"
      (by simp [baselineMean, meanQ, valuesFor, foldRec])⟩

/-- C4: both the absolute and the relative-change across-fold aggregations
of a group compute their statistics over exactly the folds present in the
table, ignoring records of other groups, and both signal an explicit error
instead of fabricating a value for a group with zero available folds. -/
theorem aggregation_missing_folds (l extra : List ResultRecord)
    (model dataset metric bl variant : String)
    (hextra : ∀ r ∈ extra,
      (r.model == model && r.dataset == dataset && r.metric == metric &&
        r.reductionMethod == variant) = false)
    (hextraBl : ∀ r ∈ extra,
      (r.model == model && r.dataset == dataset && r.metric == metric &&
        r.reductionMethod == bl) = false) :
    (valuesFor l model dataset metric variant = [] →
      aggGroup l model dataset metric variant =
        Except.error
          "aggregation over an empty group: no folds available" ∧
      aggGroupRelative l model dataset metric bl variant =
        Except.error
          "aggregation over an empty group: no folds available") ∧
    (valuesFor l model dataset metric variant ≠ [] →
      aggGroup l model dataset metric variant =
        Except.ok (meanQ (valuesFor l model dataset metric variant),
          varQ (valuesFor l model dataset metric variant))) ∧
    (valuesFor l model dataset metric variant ≠ [] →
      valuesFor l model dataset metric bl = [] →
      aggGroupRelative l model dataset metric bl variant =
        Except.error
          "aggregation over an empty baseline group: no folds available") ∧
    (valuesFor l model dataset metric variant ≠ [] →
      valuesFor l model dataset metric bl ≠ [] →
      aggGroupRelative l model dataset metric bl variant =
        Except.ok (relativeChange l model dataset metric bl variant,
          varQ (valuesFor l model dataset metric variant))) ∧
    aggGroup (l ++ extra) model dataset metric variant =
      aggGroup l model dataset metric variant ∧
    aggGroupRelative (l ++ extra) model dataset metric bl variant =
      aggGroupRelative l model dataset metric bl variant := by
  have hfilter : ∀ v : String, (∀ r ∈ extra,
      (r.model == model && r.dataset == dataset && r.metric == metric &&
        r.reductionMethod == v) = false) →
      valuesFor (l ++ extra) model dataset metric v =
        valuesFor l model dataset metric v := by
    intro v hv
    unfold valuesFor
    have hnil : extra.filter (fun r =>
        r.model == model && r.dataset == dataset && r.metric == metric &&
          r.reductionMethod == v) = [] := by
      refine List.filter_eq_nil_iff.2 ?_
      intro r hr
      simp [hv r hr]
    rw [List.filter_append, hnil, List.append_nil]
  have hval := hfilter variant hextra
  have hvalBl := hfilter bl hextraBl
  refine ⟨?_, ?_, ?_, ?_, ?_, ?_⟩
  · intro he
    exact ⟨by simp [aggGroup, he], by simp [aggGroupRelative, he]⟩
  · intro hne
    simp [aggGroup, List.isEmpty_iff, hne]
  · intro hne hbe
    simp [aggGroupRelative, List.isEmpty_iff, hne, hbe]
  · intro hne hbne
    simp [aggGroupRelative, List.isEmpty_iff, hne, hbne]
  · unfold aggGroup
    rw [hval]
  · unfold aggGroupRelative relativeChange baselineMean
    rw [hval, hvalBl]

/-- Witness for aggregation_missing_folds: in the concrete table the
Reduced group has folds 0 and 2 present with fold 1 missing, the baseline
group has folds 0 and 1, and records of a third variant change neither
aggregation. -/
theorem aggregation_missing_folds_witness :
    (∀ r ∈ aggWitnessExtra,
      (r.model == "M" && r.dataset == "D" && r.metric == "ECE" &&
        r.reductionMethod == "Reduced") = false) ∧
    (∀ r ∈ aggWitnessExtra,
      (r.model == "M" && r.dataset == "D" && r.metric == "ECE" &&
        r.reductionMethod == "Uncalibrated") = false) ∧
    ((valuesFor aggWitnessTable "M" "D" "ECE" "Reduced" = [] →
        aggGroup aggWitnessTable "M" "D" "ECE" "Reduced" =
          Except.error
            "aggregation over an empty group: no folds available" ∧
        aggGroupRelative aggWitnessTable "M" "D" "ECE" "Uncalibrated"
            "Reduced" =
          Except.error
            "aggregation over an empty group: no folds available") ∧
      (valuesFor aggWitnessTable "M" "D" "ECE" "Reduced" ≠ [] →
        aggGroup aggWitnessTable "M" "D" "ECE" "Reduced" =
          Except.ok
            (meanQ (valuesFor aggWitnessTable "M" "D" "ECE" "Reduced"),
            varQ (valuesFor aggWitnessTable "M" "D" "ECE" "Reduced"))) ∧
      (valuesFor aggWitnessTable "M" "D" "ECE" "Reduced" ≠ [] →
        valuesFor aggWitnessTable "M" "D" "ECE" "Uncalibrated" = [] →
        aggGroupRelative aggWitnessTable "M" "D" "ECE" "Uncalibrated"
            "Reduced" =
          Except.error
            "aggregation over an empty baseline group: no folds available") ∧
      (valuesFor aggWitnessTable "M" "D" "ECE" "Reduced" ≠ [] →
        valuesFor aggWitnessTable "M" "D" "ECE" "Uncalibrated" ≠ [] →
        aggGroupRelative aggWitnessTable "M" "D" "ECE" "Uncalibrated"
            "Reduced" =
          Except.ok
            (relativeChange aggWitnessTable "M" "D" "ECE" "Uncalibrated"
              "Reduced",
            varQ (valuesFor aggWitnessTable "M" "D" "ECE" "Reduced"))) ∧
      aggGroup (aggWitnessTable ++ aggWitnessExtra) "M" "D" "ECE"
          "Reduced" =
        aggGroup aggWitnessTable "M" "D" "ECE" "Reduced" ∧
      aggGroupRelative (aggWitnessTable ++ aggWitnessExtra) "M" "D" "ECE"
          "Uncalibrated" "Reduced" =
        aggGroupRelative aggWitnessTable "M" "D" "ECE" "Uncalibrated"
          "Reduced") :=
  ⟨by decide, by decide,
    aggregation_missing_folds aggWitnessTable aggWitnessExtra "M" "D"
      "ECE" "Uncalibrated" "Reduced" (by decide) (by decide)⟩

/-- The two sequential filters of the combination notebook collapse to a
single pass with the conjunction of the two predicates. -/
theorem filterResults_eq_filter (l : List ResultRecord) :
    filterResults l = l.filter (fun r =>
      !(mentionsWeighted r.reductionMethod) &&
        (r.metric != "condition" && r.metric != "weak_condition")) := by
  simp [filterResults, dropWeighted, dropDiagnostics, List.filter_filter]

/-- C3: the combining step removes every record whose metric is a
diagnostic and every record whose reduction-method name contains the
substring weighted in any letter case, so such records contribute nothing
to the combined summary outputs. -/
theorem diagnostic_and_weighted_rows_removed
    (l l₁ l₂ l₃ : List ResultRecord) (rc rw : ResultRecord)
    (hc : rc.metric = "condition" ∨ rc.metric = "weak_condition")
    (hw : mentionsWeighted rw.reductionMethod = true) :
    rc ∉ filterResults l ∧ rw ∉ filterResults l ∧
    filterResults (l₁ ++ rc :: l₂ ++ rw :: l₃) =
      filterResults (l₁ ++ l₂ ++ l₃) ∧
    combineOutputs (l₁ ++ rc :: l₂ ++ rw :: l₃) =
      combineOutputs (l₁ ++ l₂ ++ l₃) := by
  have hcpred : (!(mentionsWeighted rc.reductionMethod) &&
      (rc.metric != "condition" && rc.metric != "weak_condition")) = false := by
    rcases hc with h | h <;> simp [h]
  have hwpred : (!(mentionsWeighted rw.reductionMethod) &&
      (rw.metric != "condition" && rw.metric != "weak_condition")) = false := by
    simp [hw]
  have hfil : filterResults (l₁ ++ rc :: l₂ ++ rw :: l₃) =
      filterResults (l₁ ++ l₂ ++ l₃) := by
    simp only [filterResults_eq_filter, List.filter_append, List.filter_cons,
      hcpred, hwpred]
    simp [List.append_assoc]
  refine ⟨?_, ?_, hfil, ?_⟩
  · intro hmem
    rw [filterResults_eq_filter, List.mem_filter] at hmem
    rw [hcpred] at hmem
    exact Bool.false_ne_true hmem.2
  · intro hmem
    rw [filterResults_eq_filter, List.mem_filter] at hmem
    rw [hwpred] at hmem
    exact Bool.false_ne_true hmem.2
  · unfold combineOutputs
    rw [hfil]

/-- Witness for diagnostic_and_weighted_rows_removed: a concrete condition
row and a concrete Weighted variant row disappear from a concrete
combination input. -/
theorem diagnostic_and_weighted_rows_removed_witness :
    ((foldRec "Uncalibrated" "condition" 0 9).metric = "condition" ∨
      (foldRec "Uncalibrated" "condition" 0 9).metric = "weak_condition") ∧
    mentionsWeighted (foldRec "Weighted Baseline" "ECE" 0 7).reductionMethod
      = true ∧
    (foldRec "Uncalibrated" "condition" 0 9 ∉
        filterResults [foldRec "Uncalibrated" "condition" 0 9,
          foldRec "Weighted Baseline" "ECE" 0 7] ∧
      foldRec "Weighted Baseline" "ECE" 0 7 ∉
        filterResults [foldRec "Uncalibrated" "condition" 0 9,
          foldRec "Weighted Baseline" "ECE" 0 7] ∧
      filterResults ([foldRec "Uncalibrated" "ECE" 0 1] ++
          foldRec "Uncalibrated" "condition" 0 9 ::
            [foldRec "Reduced" "ECE" 0 2] ++
          foldRec "Weighted Baseline" "ECE" 0 7 :: []) =
        filterResults ([foldRec "Uncalibrated" "ECE" 0 1] ++
          [foldRec "Reduced" "ECE" 0 2] ++ []) ∧
      combineOutputs ([foldRec "Uncalibrated" "ECE" 0 1] ++
          foldRec "Uncalibrated" "condition" 0 9 ::
            [foldRec "Reduced" "ECE" 0 2] ++
          foldRec "Weighted Baseline" "ECE" 0 7 :: []) =
        combineOutputs ([foldRec "Uncalibrated" "ECE" 0 1] ++
          [foldRec "Reduced" "ECE" 0 2] ++ [])) :=
  ⟨Or.inl rfl, by decide,
    diagnostic_and_weighted_rows_removed
      [foldRec "Uncalibrated" "condition" 0 9,
        foldRec "Weighted Baseline" "ECE" 0 7]
      [foldRec "Uncalibrated" "ECE" 0 1] [foldRec "Reduced" "ECE" 0 2] []
      (foldRec "Uncalibrated" "condition" 0 9)
      (foldRec "Weighted Baseline" "ECE" 0 7) (Or.inl rfl) (by decide)⟩

/-- C6: two runs of the evaluator from arbitrary prior global RNG states,
with the same seed, confidences, labels and configuration, produce the
same fold assignment and identical Result Records. -/
theorem evaluator_determinism (g₁ g₂ seed : Nat) (model dataset : String)
    (conf : List (List ℚ)) (labels : List Nat) (F : Nat)
    (registry : List VariantSpec) :
    (runEvaluation g₁ seed model dataset conf labels F registry).1 =
      (runEvaluation g₂ seed model dataset conf labels F registry).1 ∧
    runFoldAssignment g₁ seed labels.length F =
      runFoldAssignment g₂ seed labels.length F :=
  ⟨rfl, rfl⟩

/-- C7: the per-experiment results.csv is written before the diagnostic
filter is applied, so diagnostic records present in the input table are in
the saved table but absent from the frame passed to plotting. -/
theorem saved_vs_plotted_diagnostics (l : List ResultRecord)
    (r : ResultRecord)
    (h : r.metric = "condition" ∨ r.metric = "weak_condition") :
    (r ∈ (notebookOutputs l).1 ↔ r ∈ l) ∧
    r ∉ (notebookOutputs l).2 := by
  constructor
  · exact Iff.rfl
  · intro hmem
    simp only [notebookOutputs, dropDiagnostics, List.mem_filter] at hmem
    rcases h with h | h <;> simp [h] at hmem

/-- Witness for saved_vs_plotted_diagnostics: a concrete weak_condition
record is saved but not plotted. -/
theorem saved_vs_plotted_diagnostics_witness :
    ((foldRec "Uncalibrated" "weak_condition" 0 3).metric = "condition" ∨
      (foldRec "Uncalibrated" "weak_condition" 0 3).metric =
        "weak_condition") ∧
    ((foldRec "Uncalibrated" "weak_condition" 0 3 ∈
        (notebookOutputs [foldRec "Uncalibrated" "weak_condition" 0 3]).1 ↔
      foldRec "Uncalibrated" "weak_condition" 0 3 ∈
        [foldRec "Uncalibrated" "weak_condition" 0 3]) ∧
      foldRec "Uncalibrated" "weak_condition" 0 3 ∉
        (notebookOutputs [foldRec "Uncalibrated" "weak_condition" 0 3]).2) :=
  ⟨Or.inr rfl,
    saved_vs_plotted_diagnostics
      [foldRec "Uncalibrated" "weak_condition" 0 3]
      (foldRec "Uncalibrated" "weak_condition" 0 3) (Or.inr rfl)⟩

/-- C8: the raw results file is results.csv with a semicolon separator,
the combining step reads with a semicolon separator and writes exactly the
four summary files with the default comma separator, the ECE summaries
over exactly the filtered records of metric ECE and the cwECE summaries
over exactly the filtered records of metric cwECE. -/
theorem output_files_layout (l : List ResultRecord) :
    notebookResultsCsv.name = "results.csv" ∧
    notebookResultsCsv.sep = ';' ∧
    combinedReadSep = ';' ∧
    ((combineOutputs l).map fun o => o.1.name) =
      ["ece_results_summary_absolute.csv", "ece_results_summary_relative.csv",
        "cwece_results_summary_absolute.csv",
        "cwece_results_summary_relative.csv"] ∧
    (∀ o ∈ combineOutputs l, o.1.sep = ',') ∧
    (∀ o ∈ (combineOutputs l).take 2, ∀ rec,
      rec ∈ o.2 ↔ rec ∈ filterResults l ∧ rec.metric = "ECE") ∧
    (∀ o ∈ (combineOutputs l).drop 2, ∀ rec,
      rec ∈ o.2 ↔ rec ∈ filterResults l ∧ rec.metric = "cwECE") := by
  refine ⟨rfl, rfl, rfl, rfl, ?_, ?_, ?_⟩
  · intro o ho
    simp only [combineOutputs, List.mem_cons, List.not_mem_nil, or_false]
      at ho
    rcases ho with h | h | h | h <;> simp [h, defaultCsvSep]
  · intro o ho rec
    simp only [combineOutputs, List.take, List.mem_cons, List.not_mem_nil,
      or_false] at ho
    rcases ho with h | h <;>
      simp [h, List.mem_filter]
  · intro o ho rec
    simp only [combineOutputs, List.drop, List.mem_cons, List.not_mem_nil,
      or_false] at ho
    rcases ho with h | h <;>
      simp [h, List.mem_filter]

/-- C10: the balanced and the imbalanced evaluation plots of the random
forest notebook are written to the same path, the second call overwrites
the first, and no file named for the imbalanced dataset exists after the
notebook completes. -/
theorem rf_plot_overwrite :
    (rfNotebookWrites.map Prod.fst) =
      ["results.csv", "evaluation_ECE_rf_balanced.eps",
        "evaluation_ECE_rf_balanced.eps",
        "evaluation_ECE_rf_temperature_scaling.eps"] ∧
    applyWrites rfNotebookWrites "evaluation_ECE_rf_balanced.eps" =
      some "Synthetic Imbalanced" ∧
    applyWrites rfNotebookWrites "evaluation_ECE_rf_imbalanced.eps" =
      none := by
  refine ⟨rfl, ?_, ?_⟩ <;> decide

end CalibExp
